import Mathlib

/-!
Verification of the OBS stream-launcher repository (Go sources) against its
natural-language specification.

The development shallowly embeds the scheduling and state-transition workflow:

* `scheduleStream` / `goLive` embed the `StreamScheduler` methods from the
  YouTube scheduler source file.  Remote API behaviour is abstracted as a
  `Platform` record of responses; each embedded operation additionally returns
  the list of remote API calls it issued, in order, so that abort/no-cleanup
  and call-count properties can be stated.
* `parseDateTime` embeds Go's `time.ParseInLocation` specialised to the one
  fixed layout `"2006-01-02T15:04:05"` used by `cmdStreamSchedule`, including
  Go's tolerances for this layout: the hour element `15` parses one or two
  digits, and a comma/period fractional second is accepted after the seconds
  even though the layout has none; all other fields are fixed-width, with
  Go's range checks including month lengths and leap years.  The parsed
  `DateTime` records the wall-clock fields; attaching the local time zone
  does not alter them.
* `resolveScheduleTimes` embeds the time-resolution prefix of
  `cmdStreamSchedule`, with the external geocoding / IP-location / sun-times
  lookups abstracted as a `GeoEnv` oracle and traced as `ExtCall` events.
* `waitAndGoLive` embeds `WaitAndGoLive`: the `select` loop over the one-shot
  deadline channel and the 30-second ticker is modelled by the sequence of
  channel events the loop receives; the function returns how many times
  `GoLive` is invoked.
* `createUnixTask` embeds the crontab upsert (the Go code splits the crontab
  text into lines and re-joins it; the embedding works on the line list).
* `degreesToCardinal` embeds the Lua `degrees_to_cardinal` bucketing for
  integer inputs (the Lua float arithmetic `floor((deg + 11.25)/22.5)` is
  exact on integer degrees and equals `(4*deg + 45)/90` in integer division).
* `schedulePostCreate` embeds the tail of `cmdStreamSchedule`: handoff-file
  write, then registration of the start and end deferred tasks.

Times are modelled as `Int` seconds; `time.Duration(k) * time.Minute` is
`60 * k` seconds.  Fallible Go calls are modelled as `Except`.
-/

/-! ### Remote platform model (YouTube LiveBroadcasts / LiveStreams API) -/

/-- A remote live stream (ingest endpoint): `youtube.LiveStream` with the
fields the scheduler reads (`Id`, `Snippet.Title`). -/
structure LiveStream where
  id : String
  title : String
  deriving DecidableEq, Repr

/-- A remote broadcast: `youtube.LiveBroadcast` with the field the scheduler
reads (`Id`). -/
structure Broadcast where
  id : String
  deriving DecidableEq, Repr

/-- One remote API call issued by the scheduler, with its arguments. -/
inductive APICall where
  | insertBroadcast (title description startTime privacy : String)
  | listStreams
  | insertStream (title : String)
  | bind (broadcastId streamId : String)
  | transition (status broadcastId : String)
  deriving DecidableEq, Repr

/-- The kind of a remote API call, forgetting arguments. -/
inductive CallKind where
  | insertBroadcast
  | listStreams
  | insertStream
  | bind
  | transition
  deriving DecidableEq, Repr

/-- Forget the arguments of an API call. -/
def APICall.kind : APICall → CallKind
  | .insertBroadcast _ _ _ _ => .insertBroadcast
  | .listStreams => .listStreams
  | .insertStream _ => .insertStream
  | .bind _ _ => .bind
  | .transition _ _ => .transition

/-- Abstract remote-platform behaviour: the response each API call would
receive in this invocation.  `transitionRes` is keyed by the transition
status and broadcast id. -/
structure Platform where
  insertBroadcastRes : Except String Broadcast
  listStreamsRes : Except String (List LiveStream)
  insertStreamRes : Except String LiveStream
  bindRes : String → String → Except String Unit
  transitionRes : String → String → Except String Unit

/-- The error taxonomy of the scheduler, one constructor per `fmt.Errorf`
wrapping site in the Go source. -/
inductive SchedErr where
  | broadcastCreateFailed (msg : String)
  | streamLookupFailed (msg : String)
  | streamCreateFailed (msg : String)
  | bindFailed (msg : String)
  | goLiveFailed (msg : String)
  deriving DecidableEq, Repr

/-- The fixed well-known ingest-endpoint display name
(`youtubeStreamTitle` constant in the Go source). -/
def youtubeStreamTitle : String := "Marshall Weather Station - Stream"

/-- Embedding of `StreamScheduler.ScheduleStream`: create the broadcast, list
the live streams, reuse the first one titled `youtubeStreamTitle` (the Go
`for`/`break` loop) or create one with that title, then bind.  Returns the
result together with the ordered list of remote calls issued. -/
def scheduleStream (p : Platform) (title description startTime privacy : String) :
    Except SchedErr (Broadcast × LiveStream) × List APICall :=
  match p.insertBroadcastRes with
  | .error e =>
      (.error (.broadcastCreateFailed e),
       [.insertBroadcast title description startTime privacy])
  | .ok b =>
    match p.listStreamsRes with
    | .error e =>
        (.error (.streamLookupFailed e),
         [.insertBroadcast title description startTime privacy, .listStreams])
    | .ok items =>
      match items.find? (fun s => s.title == youtubeStreamTitle) with
      | some st =>
        match p.bindRes b.id st.id with
        | .error e =>
            (.error (.bindFailed e),
             [.insertBroadcast title description startTime privacy, .listStreams,
              .bind b.id st.id])
        | .ok _ =>
            (.ok (b, st),
             [.insertBroadcast title description startTime privacy, .listStreams,
              .bind b.id st.id])
      | none =>
        match p.insertStreamRes with
        | .error e =>
            (.error (.streamCreateFailed e),
             [.insertBroadcast title description startTime privacy, .listStreams,
              .insertStream youtubeStreamTitle])
        | .ok st =>
          match p.bindRes b.id st.id with
          | .error e =>
              (.error (.bindFailed e),
               [.insertBroadcast title description startTime privacy, .listStreams,
                .insertStream youtubeStreamTitle, .bind b.id st.id])
          | .ok _ =>
              (.ok (b, st),
               [.insertBroadcast title description startTime privacy, .listStreams,
                .insertStream youtubeStreamTitle, .bind b.id st.id])

/-- Embedding of `StreamScheduler.GoLive`: issue the `"testing"` transition
(its result only selects a log message and a pause, so it is consulted but
never propagated), then the `"live"` transition, whose failure is wrapped and
returned. -/
def goLive (p : Platform) (broadcastID : String) :
    Except SchedErr Unit × List APICall :=
  let calls := [APICall.transition "testing" broadcastID,
                APICall.transition "live" broadcastID]
  match p.transitionRes "testing" broadcastID, p.transitionRes "live" broadcastID with
  | _, .error e => (.error (.goLiveFailed e), calls)
  | _, .ok _ => (.ok (), calls)

/-! ### Fixed-layout date-time parsing (`time.ParseInLocation`) -/

/-- Numeric value of an ASCII digit character, `none` otherwise. -/
def digitVal (c : Char) : Option Nat :=
  if c = '0' then some 0 else if c = '1' then some 1 else if c = '2' then some 2
  else if c = '3' then some 3 else if c = '4' then some 4 else if c = '5' then some 5
  else if c = '6' then some 6 else if c = '7' then some 7 else if c = '8' then some 8
  else if c = '9' then some 9 else none

/-- ASCII digit character of a value below 10. -/
def digitChar (d : Nat) : Char :=
  if d = 0 then '0' else if d = 1 then '1' else if d = 2 then '2'
  else if d = 3 then '3' else if d = 4 then '4' else if d = 5 then '5'
  else if d = 6 then '6' else if d = 7 then '7' else if d = 8 then '8' else '9'

/-- Go's `isLeap`: divisible by 4 and (not by 100 or by 400). -/
def isLeap (year : Nat) : Bool :=
  year % 4 == 0 && (year % 100 != 0 || year % 400 == 0)

/-- Go's `daysIn` for months 1–12 (February depends on leap years). -/
def daysIn (month year : Nat) : Nat :=
  if month = 2 then (if isLeap year then 29 else 28)
  else if month = 4 ∨ month = 6 ∨ month = 9 ∨ month = 11 then 30
  else 31

/-- Wall-clock fields of a parsed local date-time. -/
structure DateTime where
  year : Nat
  month : Nat
  day : Nat
  hour : Nat
  minute : Nat
  second : Nat
  deriving DecidableEq, Repr

/-- Go's range validation for the fixed layout: four-digit year, month 1–12,
day 1–`daysIn`, hour 0–23, minute and second 0–59. -/
def DateTime.valid (dt : DateTime) : Prop :=
  dt.year ≤ 9999 ∧ 1 ≤ dt.month ∧ dt.month ≤ 12 ∧
  1 ≤ dt.day ∧ dt.day ≤ daysIn dt.month dt.year ∧
  dt.hour ≤ 23 ∧ dt.minute ≤ 59 ∧ dt.second ≤ 59

instance (dt : DateTime) : Decidable dt.valid := by
  unfold DateTime.valid; infer_instance

/-- Go's `getnum` with `fixed = true` (layout elements `01`, `02`, `04`,
`05`): exactly two ASCII digits. -/
def parseNum2 : List Char → Option (Nat × List Char)
  | c1 :: c2 :: rest =>
    match digitVal c1, digitVal c2 with
    | some d1, some d2 => some (d1 * 10 + d2, rest)
    | _, _ => none
  | _ => none

/-- Go's `getnum` with `fixed = false` (layout element `15`, the hour): one
digit, or two when the second character is also a digit. -/
def parseNum12 : List Char → Option (Nat × List Char)
  | [] => none
  | c1 :: rest =>
    match digitVal c1 with
    | none => none
    | some d1 =>
      match rest with
      | [] => some (d1, [])
      | c2 :: rest2 =>
        match digitVal c2 with
        | some d2 => some (d1 * 10 + d2, rest2)
        | none => some (d1, rest)

/-- Go's `stdLongYear` (layout element `2006`): exactly four ASCII digits. -/
def parseNum4 : List Char → Option (Nat × List Char)
  | c1 :: c2 :: c3 :: c4 :: rest =>
    match digitVal c1, digitVal c2, digitVal c3, digitVal c4 with
    | some d1, some d2, some d3, some d4 =>
        some (d1 * 1000 + d2 * 100 + d3 * 10 + d4, rest)
    | _, _, _, _ => none
  | _ => none

/-- A literal layout character (`-`, `T`, `:`), matched exactly. -/
def parseSep (ch : Char) : List Char → Option (List Char)
  | c :: rest => if c = ch then some rest else none
  | [] => none

/-- Go's treatment of the input after the seconds when the layout has no
fractional element: the input must end, or carry a comma/period fractional
second — at least one digit, and nothing but digits up to the end (anything
left over is an "extra text" parse error). -/
def fracTailOk : List Char → Bool
  | [] => true
  | c :: rest =>
    (c = '.' || c = ',') && !rest.isEmpty && rest.all (fun d => (digitVal d).isSome)

/-- A well-formed optional fractional-second suffix: empty, or a comma or
period followed by one or more ASCII digits. -/
def fracSuffix (l : List Char) : Prop :=
  l = [] ∨ ∃ c ds, (c = '.' ∨ c = ',') ∧ ds ≠ [] ∧
    (∀ d ∈ ds, (digitVal d).isSome = true) ∧ l = c :: ds

/-- The date half of `time.ParseInLocation("2006-01-02T15:04:05", ...)`:
four-digit year, `-`, two-digit month, `-`, two-digit day, `T`. -/
def parseDatePart (l : List Char) : Option (Nat × Nat × Nat × List Char) :=
  match parseNum4 l with
  | none => none
  | some (year, r1) =>
    match parseSep '-' r1 with
    | none => none
    | some r2 =>
      match parseNum2 r2 with
      | none => none
      | some (month, r3) =>
        match parseSep '-' r3 with
        | none => none
        | some r4 =>
          match parseNum2 r4 with
          | none => none
          | some (day, r5) =>
            match parseSep 'T' r5 with
            | none => none
            | some r6 => some (year, month, day, r6)

/-- The clock half of `time.ParseInLocation("2006-01-02T15:04:05", ...)`:
one-or-two-digit hour, `:`, two-digit minute, `:`, two-digit second, then the
optional fractional-second tail. -/
def parseClockPart (l : List Char) : Option (Nat × Nat × Nat) :=
  match parseNum12 l with
  | none => none
  | some (hour, r1) =>
    match parseSep ':' r1 with
    | none => none
    | some r2 =>
      match parseNum2 r2 with
      | none => none
      | some (minute, r3) =>
        match parseSep ':' r3 with
        | none => none
        | some r4 =>
          match parseNum2 r4 with
          | none => none
          | some (second, r5) =>
            if fracTailOk r5 then some (hour, minute, second) else none

/-- `time.ParseInLocation("2006-01-02T15:04:05", _, time.Local)` on the
character list of the input, faithful to Go's parser for this layout: all
fields two-digit except the hour, which Go's `stdHour` parses from one or two
digits; a comma/period fractional second is accepted after the seconds even
though the layout has none (comma since Go 1.17); then Go's range checks
(month 1–12, day against month length and leap year, hour 0–23, minute and
second 0–59).  Returns the wall-clock fields (the location tag does not alter
them; the fractional second only affects the sub-second part, which the
program never uses). -/
def parseDateTimeList (l : List Char) : Option DateTime :=
  match parseDatePart l with
  | none => none
  | some (year, month, day, r) =>
    match parseClockPart r with
    | none => none
    | some (hour, minute, second) =>
      if 1 ≤ month ∧ month ≤ 12 ∧ 1 ≤ day ∧ day ≤ daysIn month year ∧
         hour ≤ 23 ∧ minute ≤ 59 ∧ second ≤ 59 then
        some ⟨year, month, day, hour, minute, second⟩
      else none

/-- Parse against the one fixed layout `2006-01-02T15:04:05`, exactly as
`time.ParseInLocation` does (strict, but with Go's one-or-two-digit hour and
optional fractional-second tolerances). -/
def parseDateTime (s : String) : Option DateTime :=
  parseDateTimeList s.data

/-- Render wall-clock fields in the fixed layout `YYYY-MM-DDTHH:MM:SS`
(zero-padded, four-digit year). -/
def renderDateTime (dt : DateTime) : String :=
  ⟨[digitChar (dt.year / 1000 % 10), digitChar (dt.year / 100 % 10),
    digitChar (dt.year / 10 % 10), digitChar (dt.year % 10), '-',
    digitChar (dt.month / 10 % 10), digitChar (dt.month % 10), '-',
    digitChar (dt.day / 10 % 10), digitChar (dt.day % 10), 'T',
    digitChar (dt.hour / 10 % 10), digitChar (dt.hour % 10), ':',
    digitChar (dt.minute / 10 % 10), digitChar (dt.minute % 10), ':',
    digitChar (dt.second / 10 % 10), digitChar (dt.second % 10)]⟩

/-- The character list of a date-time as Go's parser accepts it before any
fractional suffix: the fixed layout, except that with `shortHour` the hour is
written as a single digit. -/
def renderNoFracChars (dt : DateTime) (shortHour : Bool) : List Char :=
  [digitChar (dt.year / 1000 % 10), digitChar (dt.year / 100 % 10),
   digitChar (dt.year / 10 % 10), digitChar (dt.year % 10), '-',
   digitChar (dt.month / 10 % 10), digitChar (dt.month % 10), '-',
   digitChar (dt.day / 10 % 10), digitChar (dt.day % 10), 'T'] ++
  (if shortHour then [digitChar dt.hour]
   else [digitChar (dt.hour / 10 % 10), digitChar (dt.hour % 10)]) ++
  [':', digitChar (dt.minute / 10 % 10), digitChar (dt.minute % 10), ':',
   digitChar (dt.second / 10 % 10), digitChar (dt.second % 10)]

/-! ### Time resolution (`cmdStreamSchedule` lines 229–263, `cmdSunrise`) -/

/-- Per-character model of Go's `strings.ToUpper` (the Unicode simple
uppercase mapping), exact wherever the result can be an ASCII letter: ASCII
letters uppercase as usual, and the only two non-ASCII code points whose
simple uppercase mapping lands in ASCII — dotless `ı` (U+0131) → `I` and long
`ſ` (U+017F) → `S` — are mapped; every other character's Go uppercase is not
an ASCII letter, so equality comparisons against all-ASCII strings such as
`"SUNRISE"`/`"SUNSET"` agree with the program on every input. -/
def goToUpperChar (c : Char) : Char :=
  if c = 'ı' then 'I' else if c = 'ſ' then 'S' else c.toUpper

/-- Go's `strings.ToUpper`, verdict-faithful for comparisons against
all-ASCII strings (see `goToUpperChar`). -/
def goToUpper (s : String) : String :=
  ⟨s.data.map goToUpperChar⟩

/-- One external lookup issued during time resolution. -/
inductive ExtCall where
  | geocode (city : String)
  | ipLocate
  | sunFetch
  deriving DecidableEq, Repr

/-- Geographic coordinates (the Go `float64` pair is abstracted; the
scheduler only passes coordinates through unchanged). -/
structure Coord where
  lat : Int
  lng : Int
  deriving DecidableEq, Repr

/-- Sunrise and sunset as local absolute instants (`Int` seconds);
`getSunTimes` converts the UTC responses with `.Local()`, which preserves
the absolute instant. -/
structure SunTimes where
  sunrise : Int
  sunset : Int
  deriving DecidableEq, Repr

/-- Abstract behaviour of the external lookups (Nominatim geocoding,
ip-api.com IP location, sunrise-sunset.org). -/
structure GeoEnv where
  geocode : String → Except String Coord
  ipLocate : Except String (Coord × String)
  sunTimes : Coord → Except String SunTimes

/-- Embedding of `getSunTimesForLocation`: geocode the city if one is given,
otherwise locate by IP; then fetch sun times.  Each failure aborts (the Go
code exits the process); the trace records the external calls issued. -/
def getSunTimesForLocation (env : GeoEnv) (city : String) :
    Except String (SunTimes × String) × List ExtCall :=
  if city ≠ "" then
    match env.geocode city with
    | .error e => (.error e, [.geocode city])
    | .ok coord =>
      match env.sunTimes coord with
      | .error e => (.error e, [.geocode city, .sunFetch])
      | .ok stt => (.ok (stt, city), [.geocode city, .sunFetch])
  else
    match env.ipLocate with
    | .error e => (.error e, [.ipLocate])
    | .ok (coord, name) =>
      match env.sunTimes coord with
      | .error e => (.error e, [.ipLocate, .sunFetch])
      | .ok stt => (.ok (stt, name), [.ipLocate, .sunFetch])

/-- Errors of the time-resolution prefix of `cmdStreamSchedule`. -/
inductive TimeErr where
  | invalidTimeFormat
  | lookupFailed (msg : String)
  deriving DecidableEq, Repr

/-- The resolved start time: either the wall-clock fields of an explicit
date-time string, or an absolute instant derived from a sun event. -/
inductive ResolvedStart where
  | explicitTime (dt : DateTime)
  | fromSun (t : Int)
  deriving DecidableEq, Repr

/-- Embedding of the time-resolution prefix of `cmdStreamSchedule`: upper-case
the `-time` flag; on `SUNRISE`/`SUNSET` do the sun lookup and apply the start
and end offsets (minutes, so `60 * k` seconds); otherwise parse the flag
strictly against the fixed layout, failing with `invalidTimeFormat` (the Go
code exits before any lookup), and on success still do the sun lookup for the
end time. -/
def resolveScheduleTimes (env : GeoEnv) (timeFlag city : String)
    (startOffset endOffset : Int) :
    Except TimeErr (ResolvedStart × Int) × List ExtCall :=
  if goToUpper timeFlag = "SUNRISE" ∨ goToUpper timeFlag = "SUNSET" then
    match getSunTimesForLocation env city with
    | (.error e, tr) => (.error (.lookupFailed e), tr)
    | (.ok (stt, _), tr) =>
      (.ok (.fromSun (if goToUpper timeFlag = "SUNRISE" then
                        stt.sunrise + 60 * startOffset
                      else stt.sunset + 60 * startOffset),
            stt.sunset + 60 * endOffset), tr)
  else
    match parseDateTime timeFlag with
    | none => (.error .invalidTimeFormat, [])
    | some dt =>
      match getSunTimesForLocation env city with
      | (.error e, tr) => (.error (.lookupFailed e), tr)
      | (.ok (stt, _), tr) => (.ok (.explicitTime dt, stt.sunset + 60 * endOffset), tr)

/-- `t.Add(time.Duration(k) * time.Minute)` on an absolute instant in
seconds. -/
def timeAddMinutes (t : Int) (k : Int) : Int := t + 60 * k

/-- Wall-clock presentation of a UTC instant in a local zone whose offset is
`tz` seconds (Go's `.Local()` keeps the instant and tags the zone; the wall
clock shown is the instant shifted by the zone offset). -/
def utcToLocalWall (t tz : Int) : Int := t + tz

/-- Embedding of the sun-event resolution in `cmdSunrise`/`cmdSunset` and
`cmdStreamSchedule`: the local wall clock of the sun event, plus the signed
minute offset (`sunTimes.Sunrise.Add(time.Duration(offset) * time.Minute)`). -/
def resolveSunEvent (eventUTC tz k : Int) : Int :=
  timeAddMinutes (utcToLocalWall eventUTC tz) k

/-! ### The attached wait (`WaitAndGoLive`) -/

/-- One event received by the `select` loop in `WaitAndGoLive`: the one-shot
`time.After(duration)` deadline channel firing, or a 30-second ticker tick. -/
inductive WaitEvent where
  | deadline
  | tick
  deriving DecidableEq, Repr

/-- The `select` loop of `WaitAndGoLive`: on a ticker tick it reports the
remaining time and loops; on the deadline it invokes `GoLive` once and
returns.  The result counts `GoLive` invocations. -/
def countdownLoop : List WaitEvent → Nat
  | [] => 0
  | .deadline :: _ => 1
  | .tick :: rest => countdownLoop rest

/-- `duration := scheduledTime.Sub(now)` in seconds. -/
def waitDuration (scheduledTime now : Int) : Int := scheduledTime - now

/-- Embedding of `WaitAndGoLive`: a non-positive duration invokes `GoLive`
immediately; otherwise the `select` loop runs over the events it receives.
The result counts `GoLive` invocations. -/
def waitAndGoLive (duration : Int) (events : List WaitEvent) : Nat :=
  if duration ≤ 0 then 1 else countdownLoop events

/-! ### Deferred-task registration (`createUnixTask`) -/

/-- Go's `strings.Contains`: the pattern occurs as a contiguous substring. -/
def goContains (s pat : String) : Bool :=
  decide (pat.data <:+: s.data)

/-- The crontab comment tag `# TASK:<name>` used to identify a task's line. -/
def cronTag (taskName : String) : String := "# TASK:" ++ taskName

/-- The crontab line `fmt.Sprintf("%d %d %d %d * %s # TASK:%s", ...)`. -/
def cronEntry (minute hour day month : Nat) (command taskName : String) : String :=
  toString minute ++ " " ++ toString hour ++ " " ++ toString day ++ " " ++
    toString month ++ " * " ++ command ++ " " ++ cronTag taskName

/-- Embedding of `createUnixTask` on the crontab's line list (the Go code
splits the crontab text on newlines and re-joins it): keep every non-empty
line not containing the task's tag, then append the new entry. -/
def createUnixTask (current : List String) (taskName command : String)
    (minute hour day month : Nat) : List String :=
  (current.filter (fun line => !goContains line (cronTag taskName) && line != "")) ++
    [cronEntry minute hour day month command taskName]

/-! ### Wind-direction bucketing (`degrees_to_cardinal`, Lua) -/

/-- The 16 cardinal direction labels. -/
def directions : List String :=
  ["N", "NNE", "NE", "ENE", "E", "ESE", "SE", "SSE",
   "S", "SSW", "SW", "WSW", "W", "WNW", "NW", "NNW"]

/-- Embedding of the Lua `degrees_to_cardinal` on integer degrees: reduce
modulo 360 (Lua `%` agrees with `Int.emod` for a positive divisor), compute
the 1-based index `floor((deg + 11.25) / 22.5) % 16 + 1` — exact on integers
as `(4 * deg + 45) / 90 % 16 + 1` — and select from the 16 labels. -/
def degreesToCardinal (degrees : Int) : String :=
  let deg := degrees % 360
  let index := (4 * deg + 45) / 90 % 16 + 1
  directions.getD (index - 1).toNat "N/A"

/-! ### Post-creation orchestration (`cmdStreamSchedule` lines 286–310) -/

/-- Observable events of the tail of the `schedule` flow. -/
inductive OrchEvent where
  | savedBroadcastId
  | warnSaveFailed
  | registeredTask (name command : String)
  deriving DecidableEq, Repr

/-- The start-task command line
`fmt.Sprintf("\"%s\" stream start -id \"%s\"", execPath, broadcast.Id)`. -/
def startTaskCmd (execPath bid : String) : String :=
  "\"" ++ execPath ++ "\" stream start -id \"" ++ bid ++ "\""

/-- The end-task command line
`fmt.Sprintf("\"%s\" stream end -id \"%s\"", execPath, broadcast.Id)`. -/
def endTaskCmd (execPath bid : String) : String :=
  "\"" ++ execPath ++ "\" stream end -id \"" ++ bid ++ "\""

/-- Abstract deferred-task registry (`createScheduledTask`): name, command
line, run time. -/
structure TaskRegistry where
  createTask : String → String → Int → Except String Unit

/-- Embedding of `cmdStreamSchedule` after `ScheduleStream` succeeds: write
the broadcast id to the handoff file (a failure only prints a warning), then
register the start task and the end task; a task-registration failure exits
with an error.  Returns overall success and the ordered observable events. -/
def schedulePostCreate (reg : TaskRegistry) (execPath bid : String)
    (writeOk : Bool) (startTime endTime : Int) : Bool × List OrchEvent :=
  let ev0 := if writeOk then [OrchEvent.savedBroadcastId] else [OrchEvent.warnSaveFailed]
  match reg.createTask "StartYouTubeStream" (startTaskCmd execPath bid) startTime with
  | .error _ => (false, ev0)
  | .ok _ =>
    let ev1 := ev0 ++ [OrchEvent.registeredTask "StartYouTubeStream" (startTaskCmd execPath bid)]
    match reg.createTask "EndYouTubeStream" (endTaskCmd execPath bid) endTime with
    | .error _ => (false, ev1)
    | .ok _ => (true, ev1 ++ [OrchEvent.registeredTask "EndYouTubeStream" (endTaskCmd execPath bid)])

/-! ### Concrete witness platforms -/

/-- A concrete platform whose Testing transition is rejected while the Live
transition succeeds. -/
def testingRejectedPlatform : Platform where
  insertBroadcastRes := .ok ⟨"bid"⟩
  listStreamsRes := .ok []
  insertStreamRes := .ok ⟨"sid", youtubeStreamTitle⟩
  bindRes := fun _ _ => .ok ()
  transitionRes := fun status _ =>
    if status = "testing" then .error "redundantTransition" else .ok ()

/-- A concrete platform whose bind call fails after successful creation and
lookup. -/
def bindFailingPlatform : Platform where
  insertBroadcastRes := .ok ⟨"bid"⟩
  listStreamsRes := .ok [⟨"sid", youtubeStreamTitle⟩]
  insertStreamRes := .ok ⟨"sid2", youtubeStreamTitle⟩
  bindRes := fun _ _ => .error "bindBroken"
  transitionRes := fun _ _ => .ok ()

/-- A concrete platform whose listing already contains the fixed-title
endpoint. -/
def reusePlatform : Platform where
  insertBroadcastRes := .ok ⟨"bid"⟩
  listStreamsRes := .ok [⟨"sid", youtubeStreamTitle⟩]
  insertStreamRes := .ok ⟨"sid2", youtubeStreamTitle⟩
  bindRes := fun _ _ => .ok ()
  transitionRes := fun _ _ => .ok ()


/-- A lookup environment for exercising the no-external-calls property. -/
def nullGeoEnv : GeoEnv where
  geocode := fun _ => .error "unused"
  ipLocate := .error "unused"
  sunTimes := fun _ => .error "unused"

/-- A task registry that accepts every registration. -/
def okTaskRegistry : TaskRegistry where
  createTask := fun _ _ _ => .ok ()

/-! ### C1: `GoLive` tolerates a Testing failure, fails hard on Live -/

/-- C1: for every invocation of `GoLive` on an identifier, if the Testing
transition call fails and the subsequent Live transition call succeeds,
`GoLive` returns success with no error surfaced; if the Live transition call
fails, `GoLive` returns the `goLiveFailed` error regardless of the Testing
call's outcome. -/
theorem goLive_testing_tolerated_live_fatal (p : Platform) (broadcastID : String) :
    (∀ et, p.transitionRes "testing" broadcastID = .error et →
      p.transitionRes "live" broadcastID = .ok () →
      (goLive p broadcastID).1 = .ok ()) ∧
    (∀ el, p.transitionRes "live" broadcastID = .error el →
      (goLive p broadcastID).1 = .error (.goLiveFailed el)) := by
  constructor
  · intro et ht hl
    simp [goLive, ht, hl]
  · intro el hl
    rcases ht : p.transitionRes "testing" broadcastID with e | u <;>
      simp [goLive, ht, hl]

/-- Witness for C1 at a concrete platform: Testing fails, Live succeeds,
`GoLive` reports success. -/
theorem goLive_testing_tolerated_live_fatal_witness :
    (goLive testingRejectedPlatform "b").1 = .ok () :=
  (goLive_testing_tolerated_live_fatal testingRejectedPlatform "b").1
    "redundantTransition" rfl rfl

/-! ### C2: `ScheduleStream` aborts on the first failure, no cleanup -/

/-- C2: whenever any of the four remote steps of `ScheduleStream` fails, the
invocation returns an error and its remote-call trace is exactly the
successful prefix plus the failing call — so no later step is attempted and
no cleanup, rollback, or repeated call of any kind is issued — and each
creation call occurs at most once in the trace. -/
theorem scheduleStream_aborts_on_error (p : Platform)
    (title description startTime privacy : String) (e : SchedErr)
    (h : (scheduleStream p title description startTime privacy).1 = .error e) :
    ((scheduleStream p title description startTime privacy).2.map APICall.kind
        = [.insertBroadcast] ∨
     (scheduleStream p title description startTime privacy).2.map APICall.kind
        = [.insertBroadcast, .listStreams] ∨
     (scheduleStream p title description startTime privacy).2.map APICall.kind
        = [.insertBroadcast, .listStreams, .insertStream] ∨
     (scheduleStream p title description startTime privacy).2.map APICall.kind
        = [.insertBroadcast, .listStreams, .bind] ∨
     (scheduleStream p title description startTime privacy).2.map APICall.kind
        = [.insertBroadcast, .listStreams, .insertStream, .bind]) ∧
    ((scheduleStream p title description startTime privacy).2.map
        APICall.kind).count CallKind.insertBroadcast ≤ 1 ∧
    ((scheduleStream p title description startTime privacy).2.map
        APICall.kind).count CallKind.insertStream ≤ 1 := by
  unfold scheduleStream at h ⊢
  rcases hib : p.insertBroadcastRes with eb | b <;> simp only [hib] at h ⊢
  · simp [APICall.kind]
  · rcases hls : p.listStreamsRes with el | items <;> simp only [hls] at h ⊢
    · simp [APICall.kind]
    · rcases hf : items.find? (fun s => s.title == youtubeStreamTitle) with _ | st <;>
        simp only [hf] at h ⊢
      · rcases his : p.insertStreamRes with es | st <;> simp only [his] at h ⊢
        · simp [APICall.kind]
        · rcases hb : p.bindRes b.id st.id with ebd | u <;> simp only [hb] at h ⊢
          · simp [APICall.kind]
          · simp at h
      · rcases hb : p.bindRes b.id st.id with ebd | u <;> simp only [hb] at h ⊢
        · simp [APICall.kind]
        · simp at h

/-- Witness for C2 at a concrete platform whose bind step fails. -/
theorem scheduleStream_aborts_on_error_witness :
    ((scheduleStream bindFailingPlatform "t" "d" "s" "public").2.map APICall.kind
        = [.insertBroadcast] ∨
     (scheduleStream bindFailingPlatform "t" "d" "s" "public").2.map APICall.kind
        = [.insertBroadcast, .listStreams] ∨
     (scheduleStream bindFailingPlatform "t" "d" "s" "public").2.map APICall.kind
        = [.insertBroadcast, .listStreams, .insertStream] ∨
     (scheduleStream bindFailingPlatform "t" "d" "s" "public").2.map APICall.kind
        = [.insertBroadcast, .listStreams, .bind] ∨
     (scheduleStream bindFailingPlatform "t" "d" "s" "public").2.map APICall.kind
        = [.insertBroadcast, .listStreams, .insertStream, .bind]) ∧
    ((scheduleStream bindFailingPlatform "t" "d" "s" "public").2.map
        APICall.kind).count CallKind.insertBroadcast ≤ 1 ∧
    ((scheduleStream bindFailingPlatform "t" "d" "s" "public").2.map
        APICall.kind).count CallKind.insertStream ≤ 1 :=
  scheduleStream_aborts_on_error bindFailingPlatform "t" "d" "s" "public"
    (.bindFailed "bindBroken") rfl

/-! ### C3: endpoint created iff no endpoint carries the fixed title -/

/-- C3: in a successful `ScheduleStream` invocation, an ingest-endpoint
creation call is issued exactly when the listing contains no endpoint titled
`youtubeStreamTitle`; when a matching endpoint exists (the first match of the
Go loop), that endpoint is returned and bound, and no creation call is
issued. -/
theorem scheduleStream_reuses_existing_endpoint (p : Platform)
    (title description startTime privacy : String)
    (b : Broadcast) (st : LiveStream) (items : List LiveStream)
    (hok : (scheduleStream p title description startTime privacy).1 = .ok (b, st))
    (hl : p.listStreamsRes = .ok items) :
    ((∀ s ∈ items, s.title ≠ youtubeStreamTitle) →
      (scheduleStream p title description startTime privacy).2.map APICall.kind =
        [.insertBroadcast, .listStreams, .insertStream, .bind]) ∧
    (∀ s, items.find? (fun x => x.title == youtubeStreamTitle) = some s →
      st = s ∧
      (scheduleStream p title description startTime privacy).2 =
        [.insertBroadcast title description startTime privacy, .listStreams,
         .bind b.id s.id]) := by
  unfold scheduleStream at hok ⊢
  rcases hib : p.insertBroadcastRes with eb | b₀ <;> simp only [hib] at hok ⊢
  · simp at hok
  · simp only [hl] at hok ⊢
    rcases hf : items.find? (fun x => x.title == youtubeStreamTitle) with _ | st₀ <;>
      simp only [hf] at hok ⊢
    · constructor
      · intro _
        rcases his : p.insertStreamRes with es | st₁ <;> simp only [his] at hok ⊢
        · simp at hok
        · rcases hb : p.bindRes b₀.id st₁.id with ebd | u <;> simp only [hb] at hok ⊢
          · simp at hok
          · simp [APICall.kind]
      · intro s hs
        exact absurd hs (by simp)
    · constructor
      · intro hnone
        have hmem := List.mem_of_find?_eq_some hf
        have hpred := List.find?_some hf
        simp only [beq_iff_eq] at hpred
        exact absurd hpred (hnone st₀ hmem)
      · intro s hs
        injection hs with hs
        subst hs
        rcases hb : p.bindRes b₀.id st₀.id with ebd | u <;> simp only [hb] at hok ⊢
        · simp at hok
        · simp only [Except.ok.injEq, Prod.mk.injEq] at hok
          obtain ⟨hb₀, hst₀⟩ := hok
          subst hb₀
          subst hst₀
          exact ⟨rfl, rfl⟩

/-- Witness for C3 at a concrete platform: the existing endpoint is reused
and bound, with no creation call in the trace. -/
theorem scheduleStream_reuses_existing_endpoint_witness :
    (⟨"sid", youtubeStreamTitle⟩ : LiveStream) = ⟨"sid", youtubeStreamTitle⟩ ∧
    (scheduleStream reusePlatform "t" "d" "s" "public").2 =
      [.insertBroadcast "t" "d" "s" "public", .listStreams, .bind "bid" "sid"] :=
  (scheduleStream_reuses_existing_endpoint reusePlatform "t" "d" "s" "public"
      ⟨"bid"⟩ ⟨"sid", youtubeStreamTitle⟩ [⟨"sid", youtubeStreamTitle⟩]
      rfl rfl).2
    ⟨"sid", youtubeStreamTitle⟩ (by decide)

/-! ### C4: fixed-format parsing — corrected for Go's layout tolerances -/

theorem digitVal_digitChar {d : Nat} (h : d < 10) : digitVal (digitChar d) = some d := by
  rcases d with _|(_|(_|(_|(_|(_|(_|(_|(_|(_|n)))))))))
  · rfl
  · rfl
  · rfl
  · rfl
  · rfl
  · rfl
  · rfl
  · rfl
  · rfl
  · rfl
  · omega

theorem digitChar_digitVal {c : Char} {d : Nat} (h : digitVal c = some d) :
    digitChar d = c := by
  unfold digitVal at h
  split_ifs at h with h0 h1 h2 h3 h4 h5 h6 h7 h8 h9
  · injection h with hd; subst hd; rw [h0]; rfl
  · injection h with hd; subst hd; rw [h1]; rfl
  · injection h with hd; subst hd; rw [h2]; rfl
  · injection h with hd; subst hd; rw [h3]; rfl
  · injection h with hd; subst hd; rw [h4]; rfl
  · injection h with hd; subst hd; rw [h5]; rfl
  · injection h with hd; subst hd; rw [h6]; rfl
  · injection h with hd; subst hd; rw [h7]; rfl
  · injection h with hd; subst hd; rw [h8]; rfl
  · injection h with hd; subst hd; rw [h9]; rfl

theorem digitVal_lt {c : Char} {d : Nat} (h : digitVal c = some d) : d < 10 := by
  unfold digitVal at h
  split_ifs at h <;> (injection h with hd; omega)

theorem daysIn_le (month year : Nat) : daysIn month year ≤ 31 := by
  unfold daysIn
  split_ifs <;> omega

theorem parseNum2_digits {d1 d2 : Nat} (h1 : d1 < 10) (h2 : d2 < 10) (rest : List Char) :
    parseNum2 (digitChar d1 :: digitChar d2 :: rest) = some (d1 * 10 + d2, rest) := by
  simp [parseNum2, digitVal_digitChar h1, digitVal_digitChar h2]

theorem parseNum4_digits {d1 d2 d3 d4 : Nat} (h1 : d1 < 10) (h2 : d2 < 10)
    (h3 : d3 < 10) (h4 : d4 < 10) (rest : List Char) :
    parseNum4 (digitChar d1 :: digitChar d2 :: digitChar d3 :: digitChar d4 :: rest) =
      some (d1 * 1000 + d2 * 100 + d3 * 10 + d4, rest) := by
  simp [parseNum4, digitVal_digitChar h1, digitVal_digitChar h2,
    digitVal_digitChar h3, digitVal_digitChar h4]

theorem parseNum12_two {d1 d2 : Nat} (h1 : d1 < 10) (h2 : d2 < 10) (rest : List Char) :
    parseNum12 (digitChar d1 :: digitChar d2 :: rest) = some (d1 * 10 + d2, rest) := by
  simp [parseNum12, digitVal_digitChar h1, digitVal_digitChar h2]

theorem parseNum12_one {d1 : Nat} (h1 : d1 < 10) {c : Char} (hc : digitVal c = none)
    (rest : List Char) :
    parseNum12 (digitChar d1 :: c :: rest) = some (d1, c :: rest) := by
  simp [parseNum12, digitVal_digitChar h1, hc]

theorem parseSep_cons (ch : Char) (rest : List Char) :
    parseSep ch (ch :: rest) = some rest := by
  simp [parseSep]

theorem fracTailOk_of_fracSuffix {l : List Char} (h : fracSuffix l) :
    fracTailOk l = true := by
  rcases h with rfl | ⟨c, ds, hcd, hne, hdig, rfl⟩
  · rfl
  · rcases ds with _ | ⟨d0, ds2⟩
    · exact absurd rfl hne
    · have hall : (d0 :: ds2).all (fun d => (digitVal d).isSome) = true := by
        rw [List.all_eq_true]
        intro d hd
        exact hdig d hd
      rcases hcd with h | h <;> simp [fracTailOk, h, hall]

theorem parseDatePart_render (y mo d : Nat) (r : List Char)
    (hy : y ≤ 9999) (hmo : mo ≤ 99) (hd : d ≤ 99) :
    parseDatePart (digitChar (y / 1000 % 10) :: digitChar (y / 100 % 10) ::
      digitChar (y / 10 % 10) :: digitChar (y % 10) :: '-' ::
      digitChar (mo / 10 % 10) :: digitChar (mo % 10) :: '-' ::
      digitChar (d / 10 % 10) :: digitChar (d % 10) :: 'T' :: r) =
      some (y, mo, d, r) := by
  have ey : y / 1000 % 10 * 1000 + y / 100 % 10 * 100 + y / 10 % 10 * 10 + y % 10 = y := by
    omega
  have emo : mo / 10 % 10 * 10 + mo % 10 = mo := by omega
  have ed : d / 10 % 10 * 10 + d % 10 = d := by omega
  simp only [parseDatePart,
    parseNum4_digits (Nat.mod_lt _ (by omega)) (Nat.mod_lt _ (by omega))
      (Nat.mod_lt _ (by omega)) (Nat.mod_lt _ (by omega)),
    parseSep_cons,
    parseNum2_digits (Nat.mod_lt _ (by omega)) (Nat.mod_lt _ (by omega)),
    ey, emo, ed]

theorem parseClockPart_render_two (hh mi se : Nat) (frac : List Char)
    (hhh : hh ≤ 99) (hmi : mi ≤ 99) (hse : se ≤ 99) (hf : fracSuffix frac) :
    parseClockPart (digitChar (hh / 10 % 10) :: digitChar (hh % 10) :: ':' ::
      digitChar (mi / 10 % 10) :: digitChar (mi % 10) :: ':' ::
      digitChar (se / 10 % 10) :: digitChar (se % 10) :: frac) =
      some (hh, mi, se) := by
  have ehh : hh / 10 % 10 * 10 + hh % 10 = hh := by omega
  have emi : mi / 10 % 10 * 10 + mi % 10 = mi := by omega
  have ese : se / 10 % 10 * 10 + se % 10 = se := by omega
  simp only [parseClockPart,
    parseNum12_two (Nat.mod_lt _ (by omega)) (Nat.mod_lt _ (by omega)),
    parseSep_cons,
    parseNum2_digits (Nat.mod_lt _ (by omega)) (Nat.mod_lt _ (by omega)),
    fracTailOk_of_fracSuffix hf, if_true, ehh, emi, ese]

theorem parseClockPart_render_one (hh mi se : Nat) (frac : List Char)
    (hhh : hh ≤ 9) (hmi : mi ≤ 99) (hse : se ≤ 99) (hf : fracSuffix frac) :
    parseClockPart (digitChar hh :: ':' ::
      digitChar (mi / 10 % 10) :: digitChar (mi % 10) :: ':' ::
      digitChar (se / 10 % 10) :: digitChar (se % 10) :: frac) =
      some (hh, mi, se) := by
  have emi : mi / 10 % 10 * 10 + mi % 10 = mi := by omega
  have ese : se / 10 % 10 * 10 + se % 10 = se := by omega
  simp only [parseClockPart,
    parseNum12_one (show hh < 10 by omega) (show digitVal ':' = none from rfl),
    parseSep_cons,
    parseNum2_digits (Nat.mod_lt _ (by omega)) (Nat.mod_lt _ (by omega)),
    fracTailOk_of_fracSuffix hf, if_true, emi, ese]

theorem parseDateTimeList_render_general (dt : DateTime) (hv : dt.valid)
    (frac : List Char) (hf : fracSuffix frac) :
    parseDateTimeList (renderNoFracChars dt false ++ frac) = some dt ∧
    (dt.hour ≤ 9 → parseDateTimeList (renderNoFracChars dt true ++ frac) = some dt) := by
  obtain ⟨y, mo, d, hh, mi, se⟩ := dt
  simp only [DateTime.valid] at hv
  obtain ⟨hy, hm1, hm2, hd1, hd2, hhh, hmi, hse⟩ := hv
  have hd31 : d ≤ 31 := hd2.trans (daysIn_le mo y)
  have hcond : 1 ≤ mo ∧ mo ≤ 12 ∧ 1 ≤ d ∧ d ≤ daysIn mo y ∧
      hh ≤ 23 ∧ mi ≤ 59 ∧ se ≤ 59 := ⟨hm1, hm2, hd1, hd2, hhh, hmi, hse⟩
  constructor
  · simp only [renderNoFracChars, if_neg (by simp : ¬ (false = true)),
      List.cons_append, List.nil_append]
    simp only [parseDateTimeList,
      parseDatePart_render y mo d _ hy (by omega) (by omega),
      parseClockPart_render_two hh mi se frac (by omega) (by omega) (by omega) hf,
      if_pos hcond]
  · intro hh9
    have hh9a : hh ≤ 9 := hh9
    have hrender : renderNoFracChars ⟨y, mo, d, hh, mi, se⟩ true =
        digitChar (y / 1000 % 10) :: digitChar (y / 100 % 10) :: digitChar (y / 10 % 10) ::
        digitChar (y % 10) :: '-' :: digitChar (mo / 10 % 10) :: digitChar (mo % 10) :: '-' ::
        digitChar (d / 10 % 10) :: digitChar (d % 10) :: 'T' :: digitChar hh :: ':' ::
        digitChar (mi / 10 % 10) :: digitChar (mi % 10) :: ':' ::
        digitChar (se / 10 % 10) :: digitChar (se % 10) :: [] := rfl
    rw [hrender]
    simp only [List.cons_append, List.nil_append]
    simp only [parseDateTimeList,
      parseDatePart_render y mo d _ hy (by omega) (by omega),
      parseClockPart_render_one hh mi se frac hh9a (by omega) (by omega) hf,
      if_pos hcond]

theorem parseSep_inv {ch : Char} {l r : List Char} (h : parseSep ch l = some r) :
    l = ch :: r := by
  rcases l with _ | ⟨c, rest⟩
  · exact Option.noConfusion h
  · simp only [parseSep] at h
    split_ifs at h with hc
    injection h with h'
    rw [hc, h']

theorem parseNum2_inv {l : List Char} {n : Nat} {r : List Char}
    (h : parseNum2 l = some (n, r)) :
    n ≤ 99 ∧ l = digitChar (n / 10 % 10) :: digitChar (n % 10) :: r := by
  rcases l with _ | ⟨c1, _ | ⟨c2, rest⟩⟩
  · exact Option.noConfusion h
  · exact Option.noConfusion h
  · simp only [parseNum2] at h
    rcases hq1 : digitVal c1 with _ | d1 <;> rw [hq1] at h
    · exact Option.noConfusion h
    rcases hq2 : digitVal c2 with _ | d2 <;> rw [hq2] at h
    · exact Option.noConfusion h
    have b1 := digitVal_lt hq1
    have b2 := digitVal_lt hq2
    injection h with h'
    injection h' with hn hr
    subst hn
    subst hr
    have e1 : (d1 * 10 + d2) / 10 % 10 = d1 := by omega
    have e2 : (d1 * 10 + d2) % 10 = d2 := by omega
    rw [e1, e2, digitChar_digitVal hq1, digitChar_digitVal hq2]
    exact ⟨by omega, rfl⟩

theorem parseNum4_inv {l : List Char} {n : Nat} {r : List Char}
    (h : parseNum4 l = some (n, r)) :
    n ≤ 9999 ∧ l = digitChar (n / 1000 % 10) :: digitChar (n / 100 % 10) ::
      digitChar (n / 10 % 10) :: digitChar (n % 10) :: r := by
  rcases l with _ | ⟨c1, _ | ⟨c2, _ | ⟨c3, _ | ⟨c4, rest⟩⟩⟩⟩
  · exact Option.noConfusion h
  · exact Option.noConfusion h
  · exact Option.noConfusion h
  · exact Option.noConfusion h
  · simp only [parseNum4] at h
    rcases hq1 : digitVal c1 with _ | d1 <;> rw [hq1] at h
    · exact Option.noConfusion h
    rcases hq2 : digitVal c2 with _ | d2 <;> rw [hq2] at h
    · exact Option.noConfusion h
    rcases hq3 : digitVal c3 with _ | d3 <;> rw [hq3] at h
    · exact Option.noConfusion h
    rcases hq4 : digitVal c4 with _ | d4 <;> rw [hq4] at h
    · exact Option.noConfusion h
    have b1 := digitVal_lt hq1
    have b2 := digitVal_lt hq2
    have b3 := digitVal_lt hq3
    have b4 := digitVal_lt hq4
    injection h with h'
    injection h' with hn hr
    subst hn
    subst hr
    have e1 : (d1 * 1000 + d2 * 100 + d3 * 10 + d4) / 1000 % 10 = d1 := by omega
    have e2 : (d1 * 1000 + d2 * 100 + d3 * 10 + d4) / 100 % 10 = d2 := by omega
    have e3 : (d1 * 1000 + d2 * 100 + d3 * 10 + d4) / 10 % 10 = d3 := by omega
    have e4 : (d1 * 1000 + d2 * 100 + d3 * 10 + d4) % 10 = d4 := by omega
    rw [e1, e2, e3, e4, digitChar_digitVal hq1, digitChar_digitVal hq2,
      digitChar_digitVal hq3, digitChar_digitVal hq4]
    exact ⟨by omega, rfl⟩

theorem parseNum12_inv {l : List Char} {n : Nat} {r : List Char}
    (h : parseNum12 l = some (n, r)) :
    (n ≤ 9 ∧ l = digitChar n :: r) ∨
    (n ≤ 99 ∧ l = digitChar (n / 10 % 10) :: digitChar (n % 10) :: r) := by
  rcases l with _ | ⟨c1, rest⟩
  · exact Option.noConfusion h
  simp only [parseNum12] at h
  rcases hq1 : digitVal c1 with _ | d1 <;> rw [hq1] at h
  · exact Option.noConfusion h
  have b1 := digitVal_lt hq1
  rcases rest with _ | ⟨c2, rest2⟩
  · injection h with h'
    injection h' with hn hr
    subst hn
    subst hr
    exact Or.inl ⟨by omega, by rw [digitChar_digitVal hq1]⟩
  · replace h : (match digitVal c2 with
        | some d2 => some (d1 * 10 + d2, rest2)
        | none => some (d1, c2 :: rest2)) = some (n, r) := h
    rcases hq2 : digitVal c2 with _ | d2 <;> rw [hq2] at h
    · injection h with h'
      injection h' with hn hr
      subst hn
      subst hr
      exact Or.inl ⟨by omega, by rw [digitChar_digitVal hq1]⟩
    · have b2 := digitVal_lt hq2
      injection h with h'
      injection h' with hn hr
      subst hn
      subst hr
      have e1 : (d1 * 10 + d2) / 10 % 10 = d1 := by omega
      have e2 : (d1 * 10 + d2) % 10 = d2 := by omega
      refine Or.inr ⟨by omega, ?_⟩
      rw [e1, e2, digitChar_digitVal hq1, digitChar_digitVal hq2]

theorem fracSuffix_of_fracTailOk {l : List Char} (h : fracTailOk l = true) :
    fracSuffix l := by
  rcases l with _ | ⟨c, rest⟩
  · exact Or.inl rfl
  · simp only [fracTailOk] at h
    simp only [Bool.and_eq_true, Bool.or_eq_true, decide_eq_true_eq,
      Bool.not_eq_true', List.all_eq_true] at h
    obtain ⟨⟨hcd, hne⟩, hdig⟩ := h
    refine Or.inr ⟨c, rest, hcd, ?_, hdig, rfl⟩
    intro hnil
    rw [hnil] at hne
    exact absurd hne (by simp)

theorem parseDatePart_inv {l : List Char} {y mo d : Nat} {r : List Char}
    (h : parseDatePart l = some (y, mo, d, r)) :
    y ≤ 9999 ∧ mo ≤ 99 ∧ d ≤ 99 ∧
    l = digitChar (y / 1000 % 10) :: digitChar (y / 100 % 10) ::
      digitChar (y / 10 % 10) :: digitChar (y % 10) :: '-' ::
      digitChar (mo / 10 % 10) :: digitChar (mo % 10) :: '-' ::
      digitChar (d / 10 % 10) :: digitChar (d % 10) :: 'T' :: r := by
  unfold parseDatePart at h
  split at h
  · exact Option.noConfusion h
  rename_i yy r1 h4
  split at h
  · exact Option.noConfusion h
  rename_i r2 hs1
  split at h
  · exact Option.noConfusion h
  rename_i mm r3 h2a
  split at h
  · exact Option.noConfusion h
  rename_i r4 hs2
  split at h
  · exact Option.noConfusion h
  rename_i dd r5 h2b
  split at h
  · exact Option.noConfusion h
  rename_i r6 hs3
  injection h with h'
  injection h' with hy h'
  injection h' with hmo h'
  injection h' with hd hr
  subst hy
  subst hmo
  subst hd
  subst hr
  obtain ⟨hyb, hl4⟩ := parseNum4_inv h4
  obtain ⟨hmb, hl2a⟩ := parseNum2_inv h2a
  obtain ⟨hdb, hl2b⟩ := parseNum2_inv h2b
  have e1 := parseSep_inv hs1
  have e2 := parseSep_inv hs2
  have e3 := parseSep_inv hs3
  refine ⟨hyb, hmb, hdb, ?_⟩
  rw [hl4, e1, hl2a, e2, hl2b, e3]

theorem parseClockPart_inv {l : List Char} {hh mi se : Nat}
    (h : parseClockPart l = some (hh, mi, se)) :
    hh ≤ 99 ∧ mi ≤ 99 ∧ se ≤ 99 ∧ ∃ frac, fracSuffix frac ∧
      ((hh ≤ 9 ∧ l = digitChar hh :: ':' :: digitChar (mi / 10 % 10) ::
          digitChar (mi % 10) :: ':' :: digitChar (se / 10 % 10) ::
          digitChar (se % 10) :: frac) ∨
        l = digitChar (hh / 10 % 10) :: digitChar (hh % 10) :: ':' ::
          digitChar (mi / 10 % 10) :: digitChar (mi % 10) :: ':' ::
          digitChar (se / 10 % 10) :: digitChar (se % 10) :: frac) := by
  unfold parseClockPart at h
  split at h
  · exact Option.noConfusion h
  rename_i h1 r1 h12
  split at h
  · exact Option.noConfusion h
  rename_i r2 hs1
  split at h
  · exact Option.noConfusion h
  rename_i m1 r3 h2a
  split at h
  · exact Option.noConfusion h
  rename_i r4 hs2
  split at h
  · exact Option.noConfusion h
  rename_i s1 r5 h2b
  split at h
  rotate_left
  · exact Option.noConfusion h
  rename_i hfrac
  injection h with h'
  injection h' with hhh h'
  injection h' with hmi hse
  subst hhh
  subst hmi
  subst hse
  obtain ⟨hmb, hl2a⟩ := parseNum2_inv h2a
  obtain ⟨hsb, hl2b⟩ := parseNum2_inv h2b
  have e1 := parseSep_inv hs1
  have e2 := parseSep_inv hs2
  have hfs := fracSuffix_of_fracTailOk hfrac
  rcases parseNum12_inv h12 with ⟨hb9, hl12⟩ | ⟨hb99, hl12⟩
  · refine ⟨by omega, hmb, hsb, r5, hfs, Or.inl ⟨hb9, ?_⟩⟩
    rw [hl12, e1, hl2a, e2, hl2b]
  · refine ⟨hb99, hmb, hsb, r5, hfs, Or.inr ?_⟩
    rw [hl12, e1, hl2a, e2, hl2b]

theorem parseDateTimeList_inv {l : List Char} {dt : DateTime}
    (h : parseDateTimeList l = some dt) :
    dt.valid ∧ ∃ (shortHour : Bool) (frac : List Char), fracSuffix frac ∧
      l = renderNoFracChars dt shortHour ++ frac := by
  unfold parseDateTimeList at h
  split at h
  · exact Option.noConfusion h
  rename_i y mo d r hdate
  split at h
  · exact Option.noConfusion h
  rename_i hh mi se hclock
  split at h
  rotate_left
  · exact Option.noConfusion h
  rename_i hcond
  injection h with h'
  subst h'
  obtain ⟨hy, _, _, hl⟩ := parseDatePart_inv hdate
  obtain ⟨hh99, hmi99, hse99, frac, hf, hshape⟩ := parseClockPart_inv hclock
  obtain ⟨hm1, hm2, hd1, hd2, hhh, hmi, hse⟩ := hcond
  constructor
  · simp only [DateTime.valid]
    exact ⟨hy, hm1, hm2, hd1, hd2, hhh, hmi, hse⟩
  rcases hshape with ⟨hh9, hr⟩ | hr
  · refine ⟨true, frac, hf, ?_⟩
    rw [hl, hr]
    simp [renderNoFracChars]
  · refine ⟨false, frac, hf, ?_⟩
    rw [hl, hr]
    simp [renderNoFracChars]

/-- C4 counterexample: the explicit-time parse accepts strings outside the
fixed format `YYYY-MM-DDTHH:MM:SS` — a one-digit hour (Go's `stdHour` layout
element parses one or two digits) and a fractional-second suffix (accepted by
Go's parser even when the layout has none) — so the claim's "no other format
is accepted as an explicit time" is false at these inputs. -/
theorem parseDateTime_beyond_fixed_format :
    (parseDateTime "2026-01-02T5:04:05" = some ⟨2026, 1, 2, 5, 4, 5⟩ ∧
     "2026-01-02T5:04:05" ≠ renderDateTime ⟨2026, 1, 2, 5, 4, 5⟩) ∧
    (parseDateTime "2026-01-25T20:00:00.5" = some ⟨2026, 1, 25, 20, 0, 0⟩ ∧
     "2026-01-25T20:00:00.5" ≠ renderDateTime ⟨2026, 1, 25, 20, 0, 0⟩) :=
  ⟨⟨by rfl, by decide⟩, ⟨by rfl, by decide⟩⟩

/-- C4 (amended): every string matching the fixed format `YYYY-MM-DDTHH:MM:SS`
(with Go's range checks) parses to wall-clock fields that exactly equal the
corresponding fields of the input, interpreted in local time; the only other
strings accepted as explicit times are the same date-times written with a
one-digit hour and/or followed by a comma/period fractional-second suffix,
and their year/month/day/hour/minute/second fields likewise exactly equal the
fields written in the input. -/
theorem parseDateTime_fixed_and_lenient :
    (∀ dt : DateTime, dt.valid → parseDateTime (renderDateTime dt) = some dt) ∧
    (∀ (s : String) (dt : DateTime), parseDateTime s = some dt →
      dt.valid ∧ ∃ (shortHour : Bool) (frac : List Char), fracSuffix frac ∧
        s.data = renderNoFracChars dt shortHour ++ frac) ∧
    (∀ dt : DateTime, dt.valid → ∀ frac : List Char, fracSuffix frac →
      parseDateTime ⟨renderNoFracChars dt false ++ frac⟩ = some dt ∧
      (dt.hour ≤ 9 → parseDateTime ⟨renderNoFracChars dt true ++ frac⟩ = some dt)) := by
  refine ⟨?_, ?_, ?_⟩
  · intro dt hv
    have h := (parseDateTimeList_render_general dt hv [] (Or.inl rfl)).1
    rw [List.append_nil] at h
    have hdata : (renderDateTime dt).data = renderNoFracChars dt false := by rfl
    unfold parseDateTime
    rw [hdata]
    exact h
  · intro s dt h
    exact parseDateTimeList_inv h
  · intro dt hv frac hf
    exact ⟨(parseDateTimeList_render_general dt hv frac hf).1,
           fun h9 => (parseDateTimeList_render_general dt hv frac hf).2 h9⟩

/-- Witness for C4 (amended) at a concrete date-time in the fixed format. -/
theorem parseDateTime_fixed_and_lenient_witness :
    parseDateTime (renderDateTime ⟨2026, 1, 25, 20, 0, 0⟩) =
      some ⟨2026, 1, 25, 20, 0, 0⟩ :=
  parseDateTime_fixed_and_lenient.1 ⟨2026, 1, 25, 20, 0, 0⟩ (by decide)

/-! ### C5: rejected time strings fail fast with no external calls -/

/-- C5 counterexample: `2026-01-02T5:04:05` upper-cases to neither `SUNRISE`
nor `SUNSET` and does not match the fixed format `YYYY-MM-DDTHH:MM:SS` (its
hour has one digit), yet the program accepts it as an explicit time and
proceeds to the sun lookup for the end time — here the IP-geolocation call —
instead of failing with `invalidTimeFormat` with no external calls. -/
theorem resolveScheduleTimes_lenient_time_counterexample :
    goToUpper "2026-01-02T5:04:05" ≠ "SUNRISE" ∧
    goToUpper "2026-01-02T5:04:05" ≠ "SUNSET" ∧
    "2026-01-02T5:04:05" ≠ renderDateTime ⟨2026, 1, 2, 5, 4, 5⟩ ∧
    resolveScheduleTimes nullGeoEnv "2026-01-02T5:04:05" "" (-30) 30 =
      (.error (.lookupFailed "unused"), [.ipLocate]) :=
  ⟨by decide, by decide, by decide, by rfl⟩

/-- C5 (amended): for every `-time` flag that upper-cases to neither
`SUNRISE` nor `SUNSET` and is rejected by the strict single-layout parse
(which, as in Go, also admits a one-digit hour and an optional
fractional-second suffix), time resolution fails with `invalidTimeFormat`
and issues no external call (no geocoding, no IP geolocation, no sun-times
fetch). -/
theorem resolve_malformed_no_external_calls (env : GeoEnv) (timeFlag city : String)
    (startOffset endOffset : Int)
    (h1 : goToUpper timeFlag ≠ "SUNRISE") (h2 : goToUpper timeFlag ≠ "SUNSET")
    (h3 : parseDateTime timeFlag = none) :
    resolveScheduleTimes env timeFlag city startOffset endOffset =
      (.error .invalidTimeFormat, []) := by
  unfold resolveScheduleTimes
  rw [if_neg (by
    intro hor
    rcases hor with hor | hor
    · exact h1 hor
    · exact h2 hor)]
  rw [h3]

/-- Witness for C5 at a concrete malformed flag. -/
theorem resolve_malformed_no_external_calls_witness :
    resolveScheduleTimes nullGeoEnv "tomorrow" "" (-30) 30 =
      (.error .invalidTimeFormat, []) :=
  resolve_malformed_no_external_calls nullGeoEnv "tomorrow" "" (-30) 30
    (by decide) (by decide) rfl

/-! ### C6: the attached wait invokes `GoLive` exactly once -/

/-- The `select` loop invokes `GoLive` exactly once as soon as the one-shot
deadline channel is among the events it receives. -/
theorem countdownLoop_eq_one {events : List WaitEvent}
    (hmem : WaitEvent.deadline ∈ events) : countdownLoop events = 1 := by
  induction events with
  | nil => simp at hmem
  | cons e rest ih =>
    cases e
    · rfl
    · rcases List.mem_cons.mp hmem with h' | h'
      · exact WaitEvent.noConfusion h'
      · exact ih h'

/-- C6: the attached wait computes `duration = target - now`; if the duration
is non-positive it invokes `GoLive` immediately (exactly once), and otherwise
it invokes `GoLive` exactly once, when the deadline event arrives — never
zero times and never more than once per wait. -/
theorem waitAndGoLive_exactly_once (scheduledTime now : Int) (events : List WaitEvent) :
    (waitDuration scheduledTime now ≤ 0 →
      waitAndGoLive (waitDuration scheduledTime now) events = 1) ∧
    (0 < waitDuration scheduledTime now → WaitEvent.deadline ∈ events →
      waitAndGoLive (waitDuration scheduledTime now) events = 1) := by
  constructor
  · intro h
    simp [waitAndGoLive, h]
  · intro h hmem
    have hneg : ¬ (waitDuration scheduledTime now ≤ 0) := by omega
    simp only [waitAndGoLive, if_neg hneg]
    exact countdownLoop_eq_one hmem

/-- Witness for C6 at a concrete future target with one tick before the
deadline. -/
theorem waitAndGoLive_exactly_once_witness :
    waitAndGoLive (waitDuration 100 0) [WaitEvent.tick, WaitEvent.deadline] = 1 :=
  (waitAndGoLive_exactly_once 100 0 [WaitEvent.tick, WaitEvent.deadline]).2
    (by decide) (by decide)

/-! ### C7: sun-event offsets are pure minute addition -/

/-- C7: resolving a sun event with offset `k` equals resolving it with offset
`0` and then adding `k` minutes; the offset is pure signed minute addition
that commutes with the UTC-to-local conversion, and a negative offset shifts
the result earlier. -/
theorem resolveSunEvent_offset_additive (eventUTC tz k : Int) :
    resolveSunEvent eventUTC tz k = timeAddMinutes (resolveSunEvent eventUTC tz 0) k ∧
    resolveSunEvent eventUTC tz k = utcToLocalWall (timeAddMinutes eventUTC k) tz ∧
    (k < 0 → resolveSunEvent eventUTC tz k < resolveSunEvent eventUTC tz 0) := by
  unfold resolveSunEvent timeAddMinutes utcToLocalWall
  refine ⟨by ring, by ring, ?_⟩
  intro hk
  omega

/-- Witness for C7 at a concrete sun event with a negative offset. -/
theorem resolveSunEvent_offset_additive_witness :
    resolveSunEvent 1000 (-28800) (-30) < resolveSunEvent 1000 (-28800) 0 :=
  (resolveSunEvent_offset_additive 1000 (-28800) (-30)).2.2 (by decide)

/-! ### C8: the crontab upsert and its substring-tag pitfall -/

/-- The appended crontab entry always contains its own task tag. -/
theorem goContains_cronEntry (minute hour day month : Nat) (command taskName : String) :
    goContains (cronEntry minute hour day month command taskName)
      (cronTag taskName) = true := by
  simp only [goContains, decide_eq_true_eq]
  refine List.IsSuffix.isInfix ?_
  refine ⟨(toString minute ++ " " ++ toString hour ++ " " ++ toString day ++ " " ++
    toString month ++ " * " ++ command ++ " ").data, ?_⟩
  simp [cronEntry, String.data_append]

/-- C8 counterexample: registering task `A` removes the existing entry of the
distinct task `AB`, because `createUnixTask` filters on a substring match of
the tag `# TASK:A`, which occurs inside `# TASK:AB`; the claim's "entries
registered under other names are preserved" fails at this input. -/
theorem createUnixTask_removes_other_task :
    "0 0 1 1 * cmd # TASK:AB" ∉
      createUnixTask ["0 0 1 1 * cmd # TASK:AB"] "A" "cmd2" 0 0 1 1 := by
  decide

/-- C8 (amended): registering a task first removes every line containing the
task's tag (and every empty line) and then appends the new entry, so exactly
one entry for that name exists afterwards and repeated registrations never
accumulate duplicates; a non-empty entry registered under another name is
preserved provided its line does not contain the new task's tag as a
substring. -/
theorem createUnixTask_upsert (current : List String) (taskName command : String)
    (minute hour day month : Nat) :
    ((createUnixTask current taskName command minute hour day month).countP
        (fun line => goContains line (cronTag taskName)) = 1) ∧
    (∀ line ∈ current, goContains line (cronTag taskName) = false → line ≠ "" →
      line ∈ createUnixTask current taskName command minute hour day month) := by
  constructor
  · unfold createUnixTask
    rw [List.countP_append]
    have h1 : (current.filter
          (fun line => !goContains line (cronTag taskName) && line != "")).countP
        (fun line => goContains line (cronTag taskName)) = 0 := by
      rw [List.countP_eq_zero]
      intro a ha
      have hpa := List.of_mem_filter ha
      simp only [Bool.and_eq_true, Bool.not_eq_true', bne_iff_ne] at hpa
      simp [hpa.1]
    have h2 : ([cronEntry minute hour day month command taskName].countP
        (fun line => goContains line (cronTag taskName))) = 1 := by
      simp [List.countP_cons, goContains_cronEntry]
    rw [h1, h2]
  · intro line hmem hnc hne
    unfold createUnixTask
    refine List.mem_append_left _ ?_
    refine List.mem_filter.mpr ⟨hmem, ?_⟩
    simp [hnc, hne]

/-- Witness for C8 (amended) at a concrete registry: the entry of the
unrelated task `B` survives registering task `A`. -/
theorem createUnixTask_upsert_witness :
    "0 0 1 1 * cmd # TASK:B" ∈
      createUnixTask ["0 0 1 1 * cmd # TASK:B"] "A" "cmd2" 2 3 4 5 :=
  (createUnixTask_upsert ["0 0 1 1 * cmd # TASK:B"] "A" "cmd2" 2 3 4 5).2
    "0 0 1 1 * cmd # TASK:B" (by decide) (by decide) (by decide)

/-! ### C9: wind-direction bucketing is total modulo 360 -/

/-- C9: the degrees-to-cardinal bucketing is total over the integers — every
integer degree value, reduced modulo 360, selects one of the 16 direction
labels — and bucket(0) equals bucket(360). -/
theorem degreesToCardinal_total_mod360 :
    (∀ degrees : Int, degreesToCardinal degrees ∈ directions) ∧
    degreesToCardinal 0 = degreesToCardinal 360 := by
  constructor
  · intro degrees
    simp only [degreesToCardinal]
    have h0 : (0 : Int) ≤ degrees % 360 := Int.emod_nonneg _ (by norm_num)
    have h1 : degrees % 360 < 360 := Int.emod_lt_of_pos _ (by norm_num)
    have h16 : ((4 * (degrees % 360) + 45) / 90 % 16 + 1 - 1).toNat < 16 := by
      omega
    rw [List.getD_eq_getElem directions _ (by simpa [directions] using h16)]
    exact List.getElem_mem _
  · rfl

/-! ### C10: handoff-write failure is non-fatal in the schedule flow -/

/-- C10: when the broadcast-identifier handoff write fails, the schedule flow
only emits a warning, still registers both the start and the end deferred
task — each command line carrying the broadcast identifier explicitly — and
completes successfully. -/
theorem schedulePostCreate_write_failure_nonfatal (reg : TaskRegistry)
    (execPath bid : String) (startTime endTime : Int)
    (hstart : reg.createTask "StartYouTubeStream" (startTaskCmd execPath bid)
        startTime = .ok ())
    (hend : reg.createTask "EndYouTubeStream" (endTaskCmd execPath bid)
        endTime = .ok ()) :
    schedulePostCreate reg execPath bid false startTime endTime =
      (true, [.warnSaveFailed,
              .registeredTask "StartYouTubeStream" (startTaskCmd execPath bid),
              .registeredTask "EndYouTubeStream" (endTaskCmd execPath bid)]) ∧
    bid.data <:+: (startTaskCmd execPath bid).data ∧
    bid.data <:+: (endTaskCmd execPath bid).data := by
  refine ⟨?_, ?_, ?_⟩
  · simp [schedulePostCreate, hstart, hend]
  · refine ⟨("\"" ++ execPath ++ "\" stream start -id \"").data, "\"".data, ?_⟩
    simp [startTaskCmd, String.data_append]
  · refine ⟨("\"" ++ execPath ++ "\" stream end -id \"").data, "\"".data, ?_⟩
    simp [endTaskCmd, String.data_append]

/-- Witness for C10 at a concrete registry with a failed handoff write. -/
theorem schedulePostCreate_write_failure_nonfatal_witness :
    schedulePostCreate okTaskRegistry "/opt/launcher" "abc123" false 100 200 =
      (true, [.warnSaveFailed,
              .registeredTask "StartYouTubeStream" (startTaskCmd "/opt/launcher" "abc123"),
              .registeredTask "EndYouTubeStream" (endTaskCmd "/opt/launcher" "abc123")]) :=
  (schedulePostCreate_write_failure_nonfatal okTaskRegistry "/opt/launcher" "abc123"
    100 200 rfl rfl).1
